import Mathlib

/-!
Shallow embedding of `src/shell.py` (cmd-line-helper).

Strings are modelled as `List Char`.  Python string operations used by the
source (`str.strip`, `str.split("\n")`, slicing `[:500]`, `[-5:]`) are
embedded below.  The subprocess layer, the LLM endpoints
(`get_command_suggestions`, `analyze_error_pattern`, `get_recovery_commands`)
and the interactive `input()` answers are abstracted into an environment
record `ShellEnv`; the control flow of `ShellHelper` is translated
statement by statement.
-/

namespace CmdLineHelper

/-- Characters of a Python string. -/
abbrev Str := List Char

/-- Python whitespace test on the ASCII range, as used by `str.strip()`:
space, tab, newline, carriage return, vertical tab, form feed. -/
def pyIsSpace (c : Char) : Bool :=
  c = ' ' || c = '\t' || c = '\n' || c = '\r' || c = Char.ofNat 11 || c = Char.ofNat 12

/-- Python `s.strip()`: remove leading and trailing whitespace. -/
def pyStrip (s : Str) : Str :=
  ((s.dropWhile pyIsSpace).reverse.dropWhile pyIsSpace).reverse

/-- Python `s.split("\n")`: split on every newline, keeping empty pieces;
the empty string yields `[""]`. -/
def splitNl (s : Str) : List Str :=
  s.foldr
    (fun c acc =>
      if c = '\n' then [] :: acc
      else
        match acc with
        | h :: t => (c :: h) :: t
        | [] => [[c]])
    [[]]

/-- Python slicing `l[-n:]` for `n ≥ 0`: the last `n` elements, except that
`l[-0:]` is the whole list. -/
def pyLastN (n : Nat) (l : List α) : List α :=
  if n = 0 then l else l.drop (l.length - n)

/-- One record of `ShellHelper.command_context` (see `_add_to_context`):
a dict with keys `timestamp`, `command`, `output`, `success`. -/
structure ContextEntry where
  timestamp : Str
  command : Str
  output : Str
  success : Bool
  deriving DecidableEq

/-- The `command_context` list held by a `ShellHelper`. -/
abbrev Ctx := List ContextEntry

/-- `ShellHelper._add_to_context` (lines 119–130): append a record whose
output is `output[:500] if output else ""`, then keep only the last 5
records (`self.command_context[-5:]`). -/
def _add_to_context (ctx : Ctx) (timestamp command output : Str) (success : Bool) : Ctx :=
  pyLastN 5 (ctx ++ [⟨timestamp, command, if output = [] then [] else output.take 500, success⟩])

/-- The response parsing of `ShellHelper.get_commands` (line 153):
`[cmd.strip() for cmd in response.split("\n") if cmd.strip()]`.  The
`response` argument is the raw text returned by the LLM call
`get_command_suggestions`. -/
def get_commands (response : Str) : List Str :=
  (splitNl response).filterMap fun cmd =>
    if pyStrip cmd = [] then none else some (pyStrip cmd)

/-- Result of a completed `subprocess.run` call: `returncode`, `stdout`,
`stderr`. -/
structure RunResult where
  returncode : Int
  stdout : Str
  stderr : Str
  deriving DecidableEq

/-- Outcome of the `subprocess.run(["tree"], ...)` attempt in
`_get_directory_info`: it completes, raises `FileNotFoundError` (the only
exception caught there), or raises some other exception. -/
inductive TreeOutcome where
  | ran (r : RunResult)
  | fileNotFound
  | otherExn (e : Str)
  deriving DecidableEq

/-- Outcome of the `subprocess.run(["ls", "-R"], ...)` attempt in
`_get_directory_info`: it completes or raises (any exception is caught). -/
inductive LsOutcome where
  | ran (r : RunResult)
  | exn (e : Str)
  deriving DecidableEq

/-- The fixed fallback string returned by `_get_directory_info` when
running `ls` raises. -/
def unableMsg : Str := "Unable to get directory structure".toList

/-- The second `try` block of `_get_directory_info` (lines 112–117): return
`ls`'s stripped stdout whatever its exit status; on any exception return
the fixed message. -/
def lsFallback (ls : LsOutcome) : Str :=
  match ls with
  | .ran r => pyStrip r.stdout
  | .exn _ => unableMsg

/-- `ShellHelper._get_directory_info` (lines 103–117) as a function of the
two subprocess outcomes.  `.error` marks an exception that propagates: the
first `try` only catches `FileNotFoundError`, so any other exception from
the `tree` attempt escapes the function. -/
def _get_directory_info (tree : TreeOutcome) (ls : LsOutcome) : Except Str Str :=
  match tree with
  | .ran r => if r.returncode = 0 then .ok (pyStrip r.stdout) else .ok (lsFallback ls)
  | .fileNotFound => .ok (lsFallback ls)
  | .otherExn e => .error e

/-- The configuration of a `ShellHelper` (constructor, lines 96–101):
`trust_mode` and `max_retries` (default 3).  The mutable
`command_context` list is threaded explicitly through the functions
below. -/
structure ShellHelper where
  trust_mode : Bool
  max_retries : Nat
  deriving DecidableEq

/-- Outcome of `shlex.split(command)` followed by
`subprocess.run(args, ...)` inside `execute_command`'s `try` block: either
a completed run, or an exception (from `shlex.split` or from
`subprocess.run`) carrying its message `str(e)`. -/
inductive ExecOutcome where
  | ran (r : RunResult)
  | exn (e : Str)
  deriving DecidableEq

/-- The ambient world of a `ShellHelper`: what the subprocess layer, the
clock, the LLM endpoints and the interactive confirmations return.
`run c` is the outcome of executing command `c`; `analyze` stands for
`analyze_error_pattern` applied to `str(...)` of the given history
records; `recover` stands for `get_recovery_commands`; `dirInfo` is the
string `_get_directory_info` produces; `confirm c` is the y/n answer to
"Execute this command?" for `c`. -/
structure ShellEnv where
  run : Str → ExecOutcome
  timestamp : Str
  dirInfo : Str
  analyze : Ctx → Str → Str → Str
  recover : Str → Str → Str → Str
  confirm : Str → Bool

/-- Message returned by `execute_command` when a command fails with
`retry_count < max_retries` (line 201). -/
def couldNotMsg : Str := "Could not generate recovery command".toList

/-- Message returned when every recovery command succeeded (line 197). -/
def recoveryOkMsg : Str := "Recovery completed successfully".toList

/-- Message returned when a recovery command fails (line 196). -/
def recoveryFailedMsg (m : Str) : Str := "Recovery failed: ".toList ++ m

/-- Message returned outside trust mode after the analysis (line 199). -/
def errorAnalysisMsg (a : Str) : Str := "Error analysis: ".toList ++ a

/-- A pending piece of `execute_command`'s control flow: either a call
`execute_command(command, task, retry_count)` with context `ctx`, or the
recovery `for cmd in recovery_commands` loop (lines 188–197) with the
commands still to process. -/
inductive Call where
  | cmd (command task : Str) (retry_count : Nat) (ctx : Ctx)
  | loop (cmds : List Str) (task : Str) (ctx : Ctx)

/-- `ShellHelper.execute_command` (lines 155–207), fuel-bounded since the
recovery loop re-enters `execute_command`.  Returns the `(bool, str)`
result, the final `command_context`, and a ghost log of every
`execute_command` invocation as `(command, retry_count)` pairs; `none`
means the fuel ran out.  Statement by statement: run the command; record
it in the context (stdout on success, stderr on failure, the exception
message on an exception); on success return `(True, output)`; on failure
with `retry_count >= max_retries` obtain the analysis of
`command_context[-max_retries:]` and, in trust mode, split the recovery
response on newlines and execute each non-blank line with the retry count
reset to 0, failing fast with "Recovery failed: ..." and otherwise
returning `(True, "Recovery completed successfully")`; outside trust mode
return `(False, "Error analysis: ...")`; on failure with
`retry_count < max_retries` return
`(False, "Could not generate recovery command")`. -/
def execGo (env : ShellEnv) (h : ShellHelper) :
    Nat → Call → Option ((Bool × Str) × Ctx × List (Str × Nat))
  | 0, _ => none
  | fuel + 1, .cmd command task retry_count ctx =>
    match env.run command with
    | .exn e =>
      some ((false, e), _add_to_context ctx env.timestamp command e false,
        [(command, retry_count)])
    | .ran r =>
      let success := r.returncode == 0
      let output := if success then r.stdout else r.stderr
      let ctx1 := _add_to_context ctx env.timestamp command output success
      if success then
        some ((true, output), ctx1, [(command, retry_count)])
      else if h.max_retries ≤ retry_count then
        let analysis := env.analyze (pyLastN h.max_retries ctx1) env.dirInfo task
        if h.trust_mode then
          let rcmds := splitNl (env.recover analysis env.dirInfo task)
          if rcmds = [] then
            some ((false, errorAnalysisMsg analysis), ctx1, [(command, retry_count)])
          else
            match execGo env h fuel (.loop rcmds task ctx1) with
            | none => none
            | some (res, ctx2, tr) => some (res, ctx2, (command, retry_count) :: tr)
        else
          some ((false, errorAnalysisMsg analysis), ctx1, [(command, retry_count)])
      else
        some ((false, couldNotMsg), ctx1, [(command, retry_count)])
  | _ + 1, .loop [] _ ctx => some ((true, recoveryOkMsg), ctx, [])
  | fuel + 1, .loop (c :: rest) task ctx =>
    if pyStrip c = [] then execGo env h fuel (.loop rest task ctx)
    else
      match execGo env h fuel (.cmd c task 0 ctx) with
      | none => none
      | some ((ok, msg), ctx2, tr) =>
        if ok then
          match execGo env h fuel (.loop rest task ctx2) with
          | none => none
          | some (res, ctx3, tr2) => some (res, ctx3, tr ++ tr2)
        else
          some ((false, recoveryFailedMsg msg), ctx2, tr)

/-- `execute_command` as seen by its callers: the `(bool, str)` result and
the updated context. -/
def execute_command (env : ShellEnv) (h : ShellHelper) (fuel : Nat)
    (command task : Str) (retry_count : Nat) (ctx : Ctx) : Option ((Bool × Str) × Ctx) :=
  (execGo env h fuel (.cmd command task retry_count ctx)).map fun x => (x.1, x.2.1)

/-- The `(bool, str)` result of `execute_command` alone. -/
def execResult (env : ShellEnv) (h : ShellHelper) (fuel : Nat)
    (command task : Str) (retry_count : Nat) (ctx : Ctx) : Option (Bool × Str) :=
  (execGo env h fuel (.cmd command task retry_count ctx)).map fun x => x.1

/-- The helper constructed by `main` (line 281):
`ShellHelper(trust_mode=args.trust)`, leaving `max_retries` at its default
of 3. -/
def mainHelper (trust : Bool) : ShellHelper := ⟨trust, 3⟩

/-- The literal retry count `run_interactive` passes to `execute_command`
(line 241: `self.execute_command(cmd, task, 3)`). -/
def interactiveRetryCount : Nat := 3

/-- The `for cmd in commands` loop of `run_interactive` (lines 231–249):
outside trust mode each command is confirmed and a denial breaks the
chain; each confirmed command runs through `execute_command` with retry
count `interactiveRetryCount`, and the first failure breaks the loop.
Returns the final context and the concatenated invocation log. -/
def runTaskCommands (env : ShellEnv) (h : ShellHelper) (fuel : Nat) :
    List Str → Str → Ctx → Option (Ctx × List (Str × Nat))
  | [], _, ctx => some (ctx, [])
  | c :: rest, task, ctx =>
    if !h.trust_mode && !env.confirm c then some (ctx, [])
    else
      match execGo env h fuel (.cmd c task interactiveRetryCount ctx) with
      | none => none
      | some ((ok, _), ctx2, tr) =>
        if ok then
          match runTaskCommands env h fuel rest task ctx2 with
          | none => none
          | some (ctx3, tr2) => some (ctx3, tr ++ tr2)
        else
          some (ctx2, tr)

/-- How one iteration of `run_interactive`'s `while True` body ends:
normally (possibly by the user typing `exit`), by a `KeyboardInterrupt`,
or by some other exception being raised inside the body. -/
inductive BodyResult where
  | normal (exitRequested : Bool)
  | interrupt
  | raised (e : Str)

/-- What the loop does next: leave the loop, run another iteration, or
crash with an uncaught exception. -/
inductive LoopOutcome where
  | exitLoop
  | continueLoop
  | crash (e : Str)
  deriving DecidableEq

/-- The `try`/`except` skeleton around `run_interactive`'s loop body
(lines 216–256): typing `exit` breaks the loop, `KeyboardInterrupt`
breaks the loop, and any other exception is logged and the loop
continues; no outcome is a crash. -/
def loopStep : BodyResult → LoopOutcome
  | .normal exitRequested => if exitRequested then .exitLoop else .continueLoop
  | .interrupt => .exitLoop
  | .raised _ => .continueLoop

/-! ## Helper lemmas -/

theorem pyLastN_length_le {α : Type} (n : Nat) (hn : n ≠ 0) (l : List α) :
    (pyLastN n l).length ≤ n := by
  rw [pyLastN, if_neg hn]
  simp only [List.length_drop]
  omega

theorem pyLastN_suffix {α : Type} (n : Nat) (l : List α) : pyLastN n l <:+ l := by
  rw [pyLastN]
  by_cases hn : n = 0
  · rw [if_pos hn]
  · rw [if_neg hn]
    exact List.drop_suffix _ _

theorem add_to_context_length_le (ctx : Ctx) (ts cmd out : Str) (s : Bool) :
    (_add_to_context ctx ts cmd out s).length ≤ 5 :=
  pyLastN_length_le 5 (by decide) _

theorem add_to_context_suffix (ctx : Ctx) (ts cmd out : Str) (s : Bool) :
    _add_to_context ctx ts cmd out s <:+
      ctx ++ [⟨ts, cmd, if out = [] then [] else out.take 500, s⟩] :=
  pyLastN_suffix 5 _

theorem dropWhile_head_false {p : Char → Bool} {l t : Str} {c : Char}
    (h : l.dropWhile p = c :: t) : p c = false := by
  induction l with
  | nil => simp [List.dropWhile] at h
  | cons a as ih =>
    rw [List.dropWhile_cons] at h
    by_cases hpa : p a
    · rw [if_pos hpa] at h
      exact ih h
    · rw [if_neg hpa] at h
      obtain ⟨rfl, -⟩ := List.cons.injEq .. ▸ h
      exact Bool.eq_false_iff.mpr hpa

theorem pyStrip_idem (s : Str) : pyStrip (pyStrip s) = pyStrip s := by
  have hrw : ∀ t : Str, pyStrip t = List.rdropWhile pyIsSpace (t.dropWhile pyIsSpace) :=
    fun t => rfl
  rcases hts : pyStrip s with - | ⟨c, w⟩
  · rw [hrw, List.dropWhile_nil, List.rdropWhile_nil]
  · have hu : List.rdropWhile pyIsSpace (s.dropWhile pyIsSpace) = c :: w := (hrw s) ▸ hts
    obtain ⟨tail, htail⟩ : (c :: w) <+: s.dropWhile pyIsSpace :=
      hu ▸ List.rdropWhile_prefix _ _
    have hc : pyIsSpace c = false := dropWhile_head_false htail.symm
    have hd : (c :: w).dropWhile pyIsSpace = c :: w := by
      rw [List.dropWhile_cons, if_neg (by simp [hc])]
    calc pyStrip (c :: w)
        = List.rdropWhile pyIsSpace ((c :: w).dropWhile pyIsSpace) := hrw _
      _ = List.rdropWhile pyIsSpace (c :: w) := by rw [hd]
      _ = List.rdropWhile pyIsSpace
            (List.rdropWhile pyIsSpace (s.dropWhile pyIsSpace)) := by rw [hu]
      _ = List.rdropWhile pyIsSpace (s.dropWhile pyIsSpace) :=
            List.rdropWhile_idempotent _ _
      _ = c :: w := hu

theorem splitNl_ne_nil (s : Str) : splitNl s ≠ [] := by
  induction s with
  | nil => simp [splitNl]
  | cons c cs ih =>
    show (if c = '\n' then [] :: splitNl cs
      else match splitNl cs with
        | h :: t => (c :: h) :: t
        | [] => [[c]]) ≠ []
    by_cases hc : c = '\n'
    · simp [hc]
    · rw [if_neg hc]
      rcases hcs : splitNl cs with - | ⟨h, t⟩
      · exact absurd hcs ih
      · simp

theorem filterMap_strip_eq (l : List Str) :
    (l.filterMap fun cmd => if pyStrip cmd = [] then none else some (pyStrip cmd)) =
      (l.map pyStrip).filter fun c => !c.isEmpty := by
  induction l with
  | nil => rfl
  | cons a t ih =>
    simp only [List.filterMap_cons, List.map_cons, List.filter_cons]
    by_cases h : pyStrip a = []
    · simp [h, ih]
    · simp [h, ih, List.isEmpty_iff]

/-! ## Claims about `get_commands`, `_add_to_context`, `_get_directory_info` -/

/-- C4 counterexample: the response `"ls\n"` has two newline-separated
lines (`"ls"` and `""`) but `get_commands` returns a single command, and a
line with surrounding spaces is returned stripped, so the returned list
does not correspond line-for-line to the response text. -/
theorem get_commands_line_for_line_cex :
    splitNl ("ls\n".toList) = ["ls".toList, []] ∧
    get_commands ("ls\n".toList) = ["ls".toList] ∧
    get_commands (" ls ".toList) = ["ls".toList] := by decide

/-- C4 (amended): `get_commands` splits the response on newlines, strips
each line, and returns exactly the non-blank stripped lines in their
original order; blank and whitespace-only lines are dropped. -/
theorem get_commands_eq_stripped_nonblank (response : Str) :
    get_commands response =
      ((splitNl response).map pyStrip).filter fun c => !c.isEmpty :=
  filterMap_strip_eq (splitNl response)

/-- C5: after every `_add_to_context` call the context holds at most 5
records, and it is a suffix of the previous context extended with the new
record — i.e. the last records in order of addition. -/
theorem command_context_capped (ctx : Ctx) (ts cmd out : Str) (s : Bool) :
    (_add_to_context ctx ts cmd out s).length ≤ 5 ∧
    _add_to_context ctx ts cmd out s <:+
      ctx ++ [⟨ts, cmd, if out = [] then [] else out.take 500, s⟩] :=
  ⟨add_to_context_length_le ctx ts cmd out s, add_to_context_suffix ctx ts cmd out s⟩

/-- C9: if every record in the context has output of at most 500
characters then so does every record after an `_add_to_context` call (the
new record is truncated to `output[:500]`), and an empty output is stored
as the empty string. -/
theorem context_output_truncated (ctx : Ctx) (ts cmd out : Str) (s : Bool)
    (hctx : ∀ e ∈ ctx, e.output.length ≤ 500) :
    (∀ e ∈ _add_to_context ctx ts cmd out s, e.output.length ≤ 500) ∧
    (out = [] → ∀ e ∈ _add_to_context ctx ts cmd out s, e ∈ ctx ∨ e.output = []) := by
  have hmem : ∀ e ∈ _add_to_context ctx ts cmd out s,
      e ∈ ctx ∨ e = ⟨ts, cmd, if out = [] then [] else out.take 500, s⟩ := by
    intro e he
    have := (add_to_context_suffix ctx ts cmd out s).subset he
    rcases List.mem_append.mp this with h | h
    · exact Or.inl h
    · exact Or.inr (List.mem_singleton.mp h)
  constructor
  · intro e he
    rcases hmem e he with h | rfl
    · exact hctx e h
    · show (if out = [] then [] else out.take 500).length ≤ 500
      by_cases hout : out = []
      · rw [if_pos hout]
        simp
      · rw [if_neg hout, List.length_take]
        omega
  · intro hout e he
    rcases hmem e he with h | rfl
    · exact Or.inl h
    · exact Or.inr (by simp [hout])

/-- C9 witness: adding a record with empty output to the empty context. -/
theorem context_output_truncated_witness :
    ((⟨[], "c".toList, [], true⟩ : ContextEntry) ∈ ([] : Ctx)) ∨
      (⟨[], "c".toList, [], true⟩ : ContextEntry).output = [] :=
  (context_output_truncated [] [] ("c".toList) [] true (by simp)).2 rfl
    ⟨[], "c".toList, [], true⟩ (by decide)

/-- C10: every command returned by `get_commands` is non-empty and carries
no leading or trailing whitespace (stripping it again changes nothing). -/
theorem get_commands_stripped_nonempty (response : Str) :
    ∀ c ∈ get_commands response, c ≠ [] ∧ pyStrip c = c := by
  intro c hc
  simp only [get_commands, List.mem_filterMap] at hc
  obtain ⟨a, -, ha⟩ := hc
  by_cases h : pyStrip a = []
  · rw [if_pos h] at ha
    exact absurd ha (by simp)
  · rw [if_neg h] at ha
    obtain rfl : pyStrip a = c := Option.some.injEq .. ▸ ha
    exact ⟨h, pyStrip_idem a⟩

/-- C10 witness: the response consisting of a padded line and a blank
line yields the stripped command. -/
theorem get_commands_stripped_nonempty_witness :
    "ls".toList ≠ [] ∧ pyStrip ("ls".toList) = "ls".toList :=
  get_commands_stripped_nonempty (" ls \n\n".toList) ("ls".toList) (by decide)

/-- C7 counterexample: when `tree` exits with code 1 and `ls` exits with
code 2 (both commands fail), `_get_directory_info` returns `ls`'s stdout,
not the fixed string `"Unable to get directory structure"`. -/
theorem dirinfo_both_nonzero_cex :
    _get_directory_info (.ran ⟨1, "tr".toList, []⟩) (.ran ⟨2, "lsout".toList, []⟩) =
      .ok ("lsout".toList) ∧
    "lsout".toList ≠ unableMsg :=
  ⟨rfl, by decide⟩

/-- C7 (amended): `_get_directory_info` returns `tree`'s stripped stdout
when `tree` exits 0; it falls back to `ls` exactly when `tree` is
unavailable (`FileNotFoundError`) or exits non-zero; the fallback returns
`ls`'s stripped stdout regardless of `ls`'s exit code and returns the
fixed string `"Unable to get directory structure"` — rather than
raising — only when running `ls` raises an exception. -/
theorem dirinfo_fallback_behaviour (r : RunResult) (ls : LsOutcome) (e : Str)
    (hrc : r.returncode ≠ 0) :
    _get_directory_info (.ran r) ls = .ok (lsFallback ls) ∧
    _get_directory_info .fileNotFound ls = .ok (lsFallback ls) ∧
    (∀ r0 : RunResult, r0.returncode = 0 →
      _get_directory_info (.ran r0) ls = .ok (pyStrip r0.stdout)) ∧
    lsFallback (.exn e) = unableMsg ∧
    (∀ rl : RunResult, lsFallback (.ran rl) = pyStrip rl.stdout) := by
  refine ⟨?_, rfl, ?_, rfl, fun _ => rfl⟩
  · rw [_get_directory_info, if_neg hrc]
  · intro r0 h0
    rw [_get_directory_info, if_pos h0]

/-- C7 witness: `tree` exits 1 and `ls` raises, giving the fixed string. -/
theorem dirinfo_fallback_behaviour_witness :
    (1 : Int) ≠ 0 ∧
    _get_directory_info (.ran ⟨1, [], []⟩) (.exn "os error".toList) =
      .ok (lsFallback (.exn "os error".toList)) :=
  ⟨by decide, (dirinfo_fallback_behaviour ⟨1, [], []⟩ (.exn "os error".toList)
    ("os error".toList) (by decide)).1⟩

/-! ## Branch lemmas for `execute_command` -/

theorem execGo_cmd_exn (env : ShellEnv) (h : ShellHelper) (fuel : Nat)
    (command task e : Str) (retry_count : Nat) (ctx : Ctx)
    (hrun : env.run command = .exn e) :
    execGo env h (fuel + 1) (.cmd command task retry_count ctx) =
      some ((false, e), _add_to_context ctx env.timestamp command e false,
        [(command, retry_count)]) := by
  simp only [execGo, hrun]

theorem execGo_cmd_success (env : ShellEnv) (h : ShellHelper) (fuel : Nat)
    (command task : Str) (retry_count : Nat) (ctx : Ctx) (r : RunResult)
    (hrun : env.run command = .ran r) (hrc : r.returncode = 0) :
    execGo env h (fuel + 1) (.cmd command task retry_count ctx) =
      some ((true, r.stdout), _add_to_context ctx env.timestamp command r.stdout true,
        [(command, retry_count)]) := by
  have hb : (r.returncode == 0) = true := by simp [hrc]
  simp only [execGo, hrun, hb, if_true]

theorem execGo_cmd_fail_below (env : ShellEnv) (h : ShellHelper) (fuel : Nat)
    (command task : Str) (retry_count : Nat) (ctx : Ctx) (r : RunResult)
    (hrun : env.run command = .ran r) (hrc : r.returncode ≠ 0)
    (hlt : retry_count < h.max_retries) :
    execGo env h (fuel + 1) (.cmd command task retry_count ctx) =
      some ((false, couldNotMsg),
        _add_to_context ctx env.timestamp command r.stderr false,
        [(command, retry_count)]) := by
  have hb : (r.returncode == 0) = false := by simp [hrc]
  have hnle : ¬(h.max_retries ≤ retry_count) := Nat.not_le.mpr hlt
  simp only [execGo, hrun, hb, Bool.false_eq_true, if_false, hnle, ite_false]

/-! ## Concrete environments for witnesses and counterexamples -/

/-- A world where every command exits 1 with stderr `"boom"`, the analysis
is `"why"` and the recovery response is the empty string. -/
def envFail : ShellEnv :=
  ⟨fun _ => .ran ⟨1, [], "boom".toList⟩, [], [],
    fun _ _ _ => "why".toList, fun _ _ _ => [], fun _ => true⟩

/-- A world where every command raises an exception with message `"oops"`. -/
def envExn : ShellEnv :=
  ⟨fun _ => .exn ("oops".toList), [], [],
    fun _ _ _ => [], fun _ _ _ => [], fun _ => true⟩

/-- A world where every command exits 0 with stdout `"out"`. -/
def envOk : ShellEnv :=
  ⟨fun _ => .ran ⟨0, "out".toList, []⟩, [], [],
    fun _ _ _ => [], fun _ _ _ => [], fun _ => true⟩

/-- A world where the recovery response is the single command `"fix"`,
which succeeds, while every other command exits 1 with stderr `"e"`. -/
def envRecover : ShellEnv :=
  ⟨fun c => if c = "fix".toList then .ran ⟨0, "y".toList, []⟩ else .ran ⟨1, [], "e".toList⟩,
    [], [], fun _ _ _ => "why".toList, fun _ _ _ => "fix".toList, fun _ => true⟩

/-! ## C1: behaviour below `max_retries` -/

/-- C1 counterexample: a command fails with retry count 0, below
`max_retries = 3`, and `execute_command` gives up on this first failure:
it returns `(False, "Could not generate recovery command")`, the context
records exactly one execution, and the invocation log shows a single
invocation — no corrected command is requested from the LLM and nothing
is retried. -/
theorem execute_command_first_failure_gives_up_cex :
    execGo envFail ⟨false, 3⟩ 5 (.cmd ("cp a b".toList) ("t".toList) 0 []) =
      some ((false, couldNotMsg),
        [⟨[], "cp a b".toList, "boom".toList, false⟩],
        [("cp a b".toList, 0)]) ∧
    (0 : Nat) < 3 := by decide

/-- C1 (amended): when the subprocess for a command exits non-zero and
`retry_count < max_retries`, `execute_command` returns
`(False, "Could not generate recovery command")` immediately: the failed
run is the only invocation in the log, no LLM call is made and nothing is
retried; LLM-driven analysis and recovery happen only once
`retry_count >= max_retries`. -/
theorem execute_command_below_max_retries (env : ShellEnv) (h : ShellHelper) (fuel : Nat)
    (command task : Str) (retry_count : Nat) (ctx : Ctx) (r : RunResult)
    (hrun : env.run command = .ran r) (hrc : r.returncode ≠ 0)
    (hlt : retry_count < h.max_retries) :
    execGo env h (fuel + 1) (.cmd command task retry_count ctx) =
      some ((false, couldNotMsg),
        _add_to_context ctx env.timestamp command r.stderr false,
        [(command, retry_count)]) :=
  execGo_cmd_fail_below env h fuel command task retry_count ctx r hrun hrc hlt

/-- C1 witness: a failing command at retry count 1 with `max_retries` 3. -/
theorem execute_command_below_max_retries_witness :
    execGo envFail ⟨false, 3⟩ 2 (.cmd ("cp".toList) ("t".toList) 1 []) =
      some ((false, couldNotMsg),
        _add_to_context [] envFail.timestamp ("cp".toList) ("boom".toList) false,
        [("cp".toList, 1)]) :=
  execute_command_below_max_retries envFail ⟨false, 3⟩ 1 ("cp".toList) ("t".toList) 1 []
    ⟨1, [], "boom".toList⟩ rfl (by decide) (by decide)

/-! ## C6: exceptions are caught -/

/-- C6: an exception during command execution is caught by
`execute_command`, recorded in the context as a failed command, and turned
into the return value `(False, str(e))`; and in the interactive loop a
`KeyboardInterrupt` leaves the loop while any other exception makes the
loop continue — no body outcome crashes the process. -/
theorem exceptions_caught_and_logged (env : ShellEnv) (h : ShellHelper) (fuel : Nat)
    (command task e : Str) (retry_count : Nat) (ctx : Ctx)
    (hrun : env.run command = .exn e) :
    execute_command env h (fuel + 1) command task retry_count ctx =
      some ((false, e), _add_to_context ctx env.timestamp command e false) ∧
    loopStep (.raised e) = .continueLoop ∧
    (∀ b m, loopStep b ≠ .crash m) := by
  refine ⟨?_, rfl, ?_⟩
  · rw [execute_command, execGo_cmd_exn env h fuel command task e retry_count ctx hrun]
    rfl
  · intro b m
    cases b with
    | normal er => cases er <;> simp [loopStep]
    | interrupt => simp [loopStep]
    | raised e' => simp [loopStep]

/-- C6 witness: a world where every command raises `"oops"`. -/
theorem exceptions_caught_and_logged_witness :
    envExn.run ("x".toList) = .exn ("oops".toList) ∧
    (execute_command envExn ⟨false, 3⟩ 3 ("x".toList) ("t".toList) 0 [] =
        some ((false, "oops".toList),
          _add_to_context [] envExn.timestamp ("x".toList) ("oops".toList) false) ∧
      loopStep (.raised ("oops".toList)) = .continueLoop ∧
      (∀ b m, loopStep b ≠ .crash m)) :=
  ⟨rfl, exceptions_caught_and_logged envExn ⟨false, 3⟩ 2 ("x".toList) ("t".toList)
    ("oops".toList) 0 [] rfl⟩

/-! ## The recovery loop -/

theorem execGo_loop_true_msg (env : ShellEnv) (h : ShellHelper) :
    ∀ (fuel : Nat) (cmds : List Str) (task : Str) (ctx : Ctx) (m : Str) (ctx2 : Ctx)
      (tr : List (Str × Nat)),
      execGo env h fuel (.loop cmds task ctx) = some ((true, m), ctx2, tr) →
      m = recoveryOkMsg := by
  intro fuel
  induction fuel with
  | zero =>
    intro cmds task ctx m ctx2 tr hh
    simp [execGo] at hh
  | succ fuel ih =>
    intro cmds task ctx m ctx2 tr hh
    cases cmds with
    | nil =>
      simp only [execGo, Option.some.injEq, Prod.mk.injEq] at hh
      exact hh.1.2.symm
    | cons c rest =>
      by_cases hc : pyStrip c = []
      · exact ih rest task ctx m ctx2 tr (by simpa [execGo, hc] using hh)
      · simp only [execGo, if_neg hc] at hh
        cases hcmd : execGo env h fuel (.cmd c task 0 ctx) with
        | none => rw [hcmd] at hh; simp at hh
        | some x =>
          obtain ⟨⟨ok, msg⟩, ctxm, trm⟩ := x
          rw [hcmd] at hh
          cases ok with
          | false => simp at hh
          | true =>
            simp only [if_true] at hh
            cases hrest : execGo env h fuel (.loop rest task ctxm) with
            | none => rw [hrest] at hh; simp at hh
            | some y =>
              obtain ⟨⟨ok2, m2⟩, ctx3, tr3⟩ := y
              rw [hrest] at hh
              simp only [Option.some.injEq, Prod.mk.injEq] at hh
              obtain ⟨⟨hok2, hm2⟩, -, -⟩ := hh
              exact hm2 ▸ ih rest task ctxm m2 ctx3 tr3 (by rw [hrest, hok2])

/-! ## C2: the reported boolean -/

/-- C2 counterexample: in trust mode with the retry budget exhausted and a
blank recovery response, `execute_command` returns
`(True, "Recovery completed successfully")` although the subprocess for
the command exited with return code 1. -/
theorem execute_command_success_flag_cex :
    execute_command envFail ⟨true, 3⟩ 5 ("bad".toList) ("t".toList) 3 [] =
      some ((true, recoveryOkMsg), [⟨[], "bad".toList, "boom".toList, false⟩]) ∧
    envFail.run ("bad".toList) = .ran ⟨1, [], "boom".toList⟩ ∧
    (1 : Int) ≠ 0 := by decide

/-- C2 (amended): the boolean returned by `execute_command` is `True`
exactly on a zero return code, except for the trust-mode recovery path:
if the result is `True` then either the command's subprocess exited 0 and
the output is its stdout, or the helper is in trust mode with
`retry_count >= max_retries` and the result is
`(True, "Recovery completed successfully")` even though the command
failed; conversely a zero return code always yields `(True, stdout)`. -/
theorem execute_command_success_flag (env : ShellEnv) (h : ShellHelper) (fuel : Nat)
    (command task : Str) (retry_count : Nat) (ctx : Ctx) (b : Bool) (out : Str) (ctx' : Ctx)
    (hres : execute_command env h fuel command task retry_count ctx = some ((b, out), ctx')) :
    (b = true →
      (∃ r, env.run command = .ran r ∧ r.returncode = 0 ∧ out = r.stdout) ∨
      (h.trust_mode = true ∧ h.max_retries ≤ retry_count ∧ out = recoveryOkMsg)) ∧
    (∀ r, env.run command = .ran r → r.returncode = 0 → b = true ∧ out = r.stdout) := by
  cases fuel with
  | zero => simp [execute_command, execGo] at hres
  | succ fuel =>
    cases hrun : env.run command with
    | exn e =>
      rw [execute_command, execGo_cmd_exn env h fuel command task e retry_count ctx hrun]
        at hres
      simp only [Option.map_some', Option.some.injEq, Prod.mk.injEq] at hres
      obtain ⟨⟨hb, -⟩, -⟩ := hres
      constructor
      · intro hbt
        rw [← hb] at hbt
        exact absurd hbt (by simp)
      · intro r hr
        exact absurd hr (by simp)
    | ran r =>
      by_cases hrc : r.returncode = 0
      · rw [execute_command,
          execGo_cmd_success env h fuel command task retry_count ctx r hrun hrc] at hres
        simp only [Option.map_some', Option.some.injEq, Prod.mk.injEq] at hres
        obtain ⟨⟨hb, hout⟩, -⟩ := hres
        constructor
        · intro _
          exact Or.inl ⟨r, rfl, hrc, hout.symm⟩
        · intro r' hr'
          obtain rfl : r = r' := by injection hr'
          intro _
          exact ⟨hb.symm, hout.symm⟩
      · have hbackward : ∀ r', ExecOutcome.ran r = ExecOutcome.ran r' → r'.returncode = 0 →
            b = true ∧ out = r'.stdout := by
          intro r' hr' hrc'
          obtain rfl : r = r' := by injection hr'
          exact absurd hrc' hrc
        by_cases hret : h.max_retries ≤ retry_count
        · by_cases htr : h.trust_mode = true
          · -- trust mode, retry budget exhausted: the recovery loop decides
            have hb : (r.returncode == 0) = false := by simp [hrc]
            rw [execute_command] at hres
            simp only [execGo, hrun, hb, Bool.false_eq_true, if_false, if_pos hret,
              htr, if_true] at hres
            generalize hrcmds : splitNl (env.recover (env.analyze (pyLastN h.max_retries
              (_add_to_context ctx env.timestamp command r.stderr false)) env.dirInfo task)
              env.dirInfo task) = rcmds at hres
            rw [if_neg (hrcmds ▸ splitNl_ne_nil _)] at hres
            cases hloop : execGo env h fuel (.loop rcmds task
                (_add_to_context ctx env.timestamp command r.stderr false)) with
            | none =>
              rw [hloop] at hres
              simp at hres
            | some y =>
              obtain ⟨⟨okL, mL⟩, ctxL, trL⟩ := y
              rw [hloop] at hres
              simp only [Option.map_some', Option.some.injEq, Prod.mk.injEq] at hres
              obtain ⟨⟨hokL, hmL⟩, -⟩ := hres
              refine ⟨fun hbt => Or.inr ⟨htr, hret, ?_⟩, hbackward⟩
              have hokL' : okL = true := hokL ▸ hbt
              have := execGo_loop_true_msg env h fuel rcmds task _ mL ctxL trL
                (by rw [hloop, hokL'])
              rw [← hmL, this]
          · -- analysis only, outside trust mode
            have hb : (r.returncode == 0) = false := by simp [hrc]
            have htr' : h.trust_mode = false := by
              cases htm : h.trust_mode
              · rfl
              · exact absurd htm htr
            rw [execute_command] at hres
            simp only [execGo, hrun, hb, Bool.false_eq_true, if_false, if_pos hret,
              htr', Option.map_some', Option.some.injEq, Prod.mk.injEq] at hres
            obtain ⟨⟨hbf, -⟩, -⟩ := hres
            refine ⟨fun hbt => absurd (hbf ▸ hbt) (by simp), hbackward⟩
        · -- below the retry budget
          have hlt : retry_count < h.max_retries := Nat.not_le.mp hret
          rw [execute_command,
            execGo_cmd_fail_below env h fuel command task retry_count ctx r hrun hrc hlt]
            at hres
          simp only [Option.map_some', Option.some.injEq, Prod.mk.injEq] at hres
          obtain ⟨⟨hbf, -⟩, -⟩ := hres
          refine ⟨fun hbt => absurd (hbf ▸ hbt) (by simp), hbackward⟩

/-- C2 witness: the trust-mode recovery result of the counterexample
world satisfies the amended characterisation. -/
theorem execute_command_success_flag_witness :
    ((true : Bool) = true →
      (∃ r, envFail.run ("bad".toList) = .ran r ∧ r.returncode = 0 ∧
        recoveryOkMsg = r.stdout) ∨
      ((⟨true, 3⟩ : ShellHelper).trust_mode = true ∧
        (⟨true, 3⟩ : ShellHelper).max_retries ≤ 3 ∧ recoveryOkMsg = recoveryOkMsg)) ∧
    (∀ r, envFail.run ("bad".toList) = .ran r → r.returncode = 0 →
      (true : Bool) = true ∧ recoveryOkMsg = r.stdout) :=
  execute_command_success_flag envFail ⟨true, 3⟩ 5 ("bad".toList) ("t".toList) 3 []
    true recoveryOkMsg [⟨[], "bad".toList, "boom".toList, false⟩] (by decide)

/-! ## C3: retry counts reachable from `run_interactive` -/

/-- The `retry_count` a pending call was entered with (a loop has none:
its nested calls are made with retry count 0, line 193). -/
def callRetry : Call → Nat
  | .cmd _ _ retry_count _ => retry_count
  | .loop _ _ _ => 0

theorem execGo_trace_retry (env : ShellEnv) (h : ShellHelper) :
    ∀ (fuel : Nat) (call : Call) (res : Bool × Str) (ctx' : Ctx) (tr : List (Str × Nat)),
      execGo env h fuel call = some (res, ctx', tr) →
      ∀ p ∈ tr, p.2 = callRetry call ∨ p.2 = 0 := by
  intro fuel
  induction fuel with
  | zero =>
    intro call res ctx' tr hh
    simp [execGo] at hh
  | succ fuel ih =>
    intro call res ctx' tr hh
    cases call with
    | cmd command task retry_count ctx =>
      cases hrun : env.run command with
      | exn e =>
        rw [execGo_cmd_exn env h fuel command task e retry_count ctx hrun] at hh
        obtain ⟨-, -, rfl⟩ : res = (false, e) ∧ ctx' = _ ∧ tr = [(command, retry_count)] := by
          simpa using hh.symm
        intro p hp
        obtain rfl : p = (command, retry_count) := List.mem_singleton.mp hp
        exact Or.inl rfl
      | ran r =>
        by_cases hrc : r.returncode = 0
        · rw [execGo_cmd_success env h fuel command task retry_count ctx r hrun hrc] at hh
          obtain ⟨-, -, rfl⟩ :
              res = (true, r.stdout) ∧ ctx' = _ ∧ tr = [(command, retry_count)] := by
            simpa using hh.symm
          intro p hp
          obtain rfl : p = (command, retry_count) := List.mem_singleton.mp hp
          exact Or.inl rfl
        · by_cases hret : h.max_retries ≤ retry_count
          · by_cases htr : h.trust_mode = true
            · have hb : (r.returncode == 0) = false := by simp [hrc]
              simp only [execGo, hrun, hb, Bool.false_eq_true, if_false, if_pos hret,
                htr, if_true] at hh
              generalize hrcmds : splitNl (env.recover (env.analyze (pyLastN h.max_retries
                (_add_to_context ctx env.timestamp command r.stderr false)) env.dirInfo
                task) env.dirInfo task) = rcmds at hh
              rw [if_neg (hrcmds ▸ splitNl_ne_nil _)] at hh
              cases hloop : execGo env h fuel (.loop rcmds task
                  (_add_to_context ctx env.timestamp command r.stderr false)) with
              | none =>
                rw [hloop] at hh
                simp at hh
              | some y =>
                obtain ⟨resL, ctxL, trL⟩ := y
                rw [hloop] at hh
                simp only [Option.some.injEq, Prod.mk.injEq] at hh
                obtain ⟨-, -, htr'⟩ := hh
                intro p hp
                rw [← htr'] at hp
                rcases List.mem_cons.mp hp with rfl | hp'
                · exact Or.inl rfl
                · rcases ih _ resL ctxL trL hloop p hp' with h0 | h0
                  · exact Or.inr h0
                  · exact Or.inr h0
            · have htr' : h.trust_mode = false := by
                cases htm : h.trust_mode
                · rfl
                · exact absurd htm htr
              have hb : (r.returncode == 0) = false := by simp [hrc]
              simp only [execGo, hrun, hb, Bool.false_eq_true, if_false, if_pos hret,
                htr', Bool.false_eq_true, if_false, Option.some.injEq,
                Prod.mk.injEq] at hh
              obtain ⟨-, -, htr2⟩ := hh
              intro p hp
              rw [← htr2] at hp
              obtain rfl : p = (command, retry_count) := List.mem_singleton.mp hp
              exact Or.inl rfl
          · have hlt : retry_count < h.max_retries := Nat.not_le.mp hret
            rw [execGo_cmd_fail_below env h fuel command task retry_count ctx r hrun hrc
              hlt] at hh
            obtain ⟨-, -, rfl⟩ :
                res = (false, couldNotMsg) ∧ ctx' = _ ∧ tr = [(command, retry_count)] := by
              simpa using hh.symm
            intro p hp
            obtain rfl : p = (command, retry_count) := List.mem_singleton.mp hp
            exact Or.inl rfl
    | loop cmds task ctx =>
      cases cmds with
      | nil =>
        simp only [execGo, Option.some.injEq, Prod.mk.injEq] at hh
        obtain ⟨-, -, htr'⟩ := hh
        intro p hp
        rw [← htr'] at hp
        simp at hp
      | cons c rest =>
        by_cases hc : pyStrip c = []
        · have hh' : execGo env h fuel (.loop rest task ctx) = some (res, ctx', tr) := by
            simpa [execGo, hc] using hh
          intro p hp
          rcases ih _ res ctx' tr hh' p hp with h0 | h0
          · exact Or.inr h0
          · exact Or.inr h0
        · simp only [execGo, if_neg hc] at hh
          cases hcmd : execGo env h fuel (.cmd c task 0 ctx) with
          | none =>
            rw [hcmd] at hh
            simp at hh
          | some x =>
            obtain ⟨⟨ok, msg⟩, ctxm, trm⟩ := x
            rw [hcmd] at hh
            have htrm : ∀ p ∈ trm, p.2 = 0 := by
              intro p hp
              rcases ih _ (ok, msg) ctxm trm hcmd p hp with h0 | h0
              · exact h0
              · exact h0
            cases ok with
            | false =>
              simp only [Bool.false_eq_true, if_false, Option.some.injEq,
                Prod.mk.injEq] at hh
              obtain ⟨-, -, htr'⟩ := hh
              intro p hp
              rw [← htr'] at hp
              exact Or.inr (htrm p hp)
            | true =>
              simp only [if_true] at hh
              cases hrest : execGo env h fuel (.loop rest task ctxm) with
              | none =>
                rw [hrest] at hh
                simp at hh
              | some y =>
                obtain ⟨resR, ctxR, trR⟩ := y
                rw [hrest] at hh
                simp only [Option.some.injEq, Prod.mk.injEq] at hh
                obtain ⟨-, -, htr'⟩ := hh
                intro p hp
                rw [← htr'] at hp
                rcases List.mem_append.mp hp with hp' | hp'
                · exact Or.inr (htrm p hp')
                · rcases ih _ resR ctxR trR hrest p hp' with h0 | h0
                  · exact Or.inr h0
                  · exact Or.inr h0

/-- C3: in `run_interactive`'s command loop over a helper constructed by
`main` (default `max_retries = 3`), every `execute_command` invocation —
the top-level ones made with the literal retry count 3 and the recursive
recovery invocations made with retry count 0 — carries a retry count that
never exceeds the helper's `max_retries`. -/
theorem run_interactive_retry_le_max (env : ShellEnv) (trust : Bool) (fuel : Nat)
    (cmds : List Str) (task : Str) (ctx ctx' : Ctx) (tr : List (Str × Nat))
    (hres : runTaskCommands env (mainHelper trust) fuel cmds task ctx = some (ctx', tr)) :
    ∀ p ∈ tr, p.2 ≤ (mainHelper trust).max_retries := by
  induction cmds generalizing ctx ctx' tr with
  | nil =>
    obtain ⟨-, rfl⟩ : ctx' = ctx ∧ tr = [] := by
      simpa [runTaskCommands] using hres.symm
    simp
  | cons c rest ih =>
    rw [runTaskCommands] at hres
    by_cases hconf : (!(mainHelper trust).trust_mode && !env.confirm c) = true
    · rw [if_pos hconf] at hres
      obtain ⟨-, rfl⟩ : ctx' = ctx ∧ tr = [] := by simpa using hres.symm
      simp
    · rw [if_neg hconf] at hres
      cases hgo : execGo env (mainHelper trust) fuel
          (.cmd c task interactiveRetryCount ctx) with
      | none =>
        rw [hgo] at hres
        simp at hres
      | some x =>
        obtain ⟨⟨ok, msg⟩, ctx2, tr1⟩ := x
        rw [hgo] at hres
        have htr1 : ∀ p ∈ tr1, p.2 ≤ (mainHelper trust).max_retries := by
          intro p hp
          rcases execGo_trace_retry env (mainHelper trust) fuel _ (ok, msg) ctx2 tr1
              hgo p hp with h0 | h0
          · rw [h0]
            exact Nat.le_refl _
          · rw [h0]
            exact Nat.zero_le _
        cases ok with
        | false =>
          simp only [Bool.false_eq_true, if_false, Option.some.injEq,
            Prod.mk.injEq] at hres
          obtain ⟨-, htr'⟩ := hres
          intro p hp
          rw [← htr'] at hp
          exact htr1 p hp
        | true =>
          simp only [if_true] at hres
          cases hrest : runTaskCommands env (mainHelper trust) fuel rest task ctx2 with
          | none =>
            rw [hrest] at hres
            simp at hres
          | some y =>
            obtain ⟨ctx3, tr2⟩ := y
            rw [hrest] at hres
            simp only [Option.some.injEq, Prod.mk.injEq] at hres
            obtain ⟨-, htr'⟩ := hres
            intro p hp
            rw [← htr'] at hp
            rcases List.mem_append.mp hp with hp' | hp'
            · exact htr1 p hp'
            · exact ih ctx2 ctx3 tr2 hrest p hp'

/-- C3 witness: one successful top-level command in trust mode; its
logged invocation carries retry count 3, within `max_retries = 3`. -/
theorem run_interactive_retry_le_max_witness :
    (("x".toList, 3) : Str × Nat).2 ≤ (mainHelper true).max_retries :=
  run_interactive_retry_le_max envOk true 3 ["x".toList] ("t".toList) []
    [⟨[], "x".toList, "out".toList, true⟩] [("x".toList, 3)] (by decide)
    ("x".toList, 3) (by decide)

/-! ## C8: trust-mode recovery -/

theorem execGo_loop_cons_skip (env : ShellEnv) (h : ShellHelper) (fuel : Nat)
    (c : Str) (rest : List Str) (task : Str) (ctx : Ctx) (hc : pyStrip c = []) :
    execGo env h (fuel + 1) (.loop (c :: rest) task ctx) =
      execGo env h fuel (.loop rest task ctx) := by
  simp only [execGo, if_pos hc]

theorem execGo_loop_cons_exec_ok (env : ShellEnv) (h : ShellHelper) (fuel : Nat)
    (c : Str) (rest : List Str) (task : Str) (ctx : Ctx) (msg : Str) (ctx2 : Ctx)
    (tr : List (Str × Nat)) (hc : pyStrip c ≠ [])
    (hcmd : execGo env h fuel (.cmd c task 0 ctx) = some ((true, msg), ctx2, tr)) :
    execGo env h (fuel + 1) (.loop (c :: rest) task ctx) =
      (match execGo env h fuel (.loop rest task ctx2) with
        | none => none
        | some (res, ctx3, tr2) => some (res, ctx3, tr ++ tr2)) := by
  simp only [execGo, if_neg hc, hcmd, if_true]

theorem execGo_loop_cons_exec_fail (env : ShellEnv) (h : ShellHelper) (fuel : Nat)
    (c : Str) (rest : List Str) (task : Str) (ctx : Ctx) (msg : Str) (ctx2 : Ctx)
    (tr : List (Str × Nat)) (hc : pyStrip c ≠ [])
    (hcmd : execGo env h fuel (.cmd c task 0 ctx) = some ((false, msg), ctx2, tr)) :
    execGo env h (fuel + 1) (.loop (c :: rest) task ctx) =
      some ((false, recoveryFailedMsg msg), ctx2, tr) := by
  simp only [execGo, if_neg hc, hcmd, Bool.false_eq_true, if_false]

theorem execGo_cmd_trust_exhausted (env : ShellEnv) (h : ShellHelper) (fuel : Nat)
    (command task : Str) (retry_count : Nat) (ctx : Ctx) (r : RunResult)
    (htrust : h.trust_mode = true) (hretry : h.max_retries ≤ retry_count)
    (hrun : env.run command = .ran r) (hrc : r.returncode ≠ 0) :
    execGo env h (fuel + 1) (.cmd command task retry_count ctx) =
      (match execGo env h fuel (.loop (splitNl (env.recover (env.analyze
          (pyLastN h.max_retries
            (_add_to_context ctx env.timestamp command r.stderr false))
          env.dirInfo task) env.dirInfo task)) task
          (_add_to_context ctx env.timestamp command r.stderr false)) with
        | none => none
        | some (res, ctx2, tr) => some (res, ctx2, (command, retry_count) :: tr)) := by
  have hb : (r.returncode == 0) = false := by simp [hrc]
  simp only [execGo, hrun, hb, Bool.false_eq_true, if_false, if_pos hretry, htrust,
    if_true]
  rw [if_neg (splitNl_ne_nil _)]

theorem execGo_loop_all_ok (env : ShellEnv) (h : ShellHelper) (task : Str) :
    ∀ (cmds : List Str) (fuel : Nat) (ctx : Ctx),
      (∀ c ∈ cmds, pyStrip c ≠ [] → ∃ r, env.run c = .ran r ∧ r.returncode = 0) →
      cmds.length < fuel →
      ∃ ctx' tr, execGo env h fuel (.loop cmds task ctx) =
        some ((true, recoveryOkMsg), ctx', tr) := by
  intro cmds
  induction cmds with
  | nil =>
    intro fuel ctx hall hf
    cases fuel with
    | zero => exact absurd hf (Nat.not_lt_zero _)
    | succ f => exact ⟨ctx, [], rfl⟩
  | cons c rest ih =>
    intro fuel ctx hall hf
    cases fuel with
    | zero => exact absurd hf (Nat.not_lt_zero _)
    | succ f =>
      have hflen : rest.length < f := by
        simp only [List.length_cons] at hf
        omega
      have hall' : ∀ c' ∈ rest, pyStrip c' ≠ [] →
          ∃ r, env.run c' = .ran r ∧ r.returncode = 0 :=
        fun c' hc' => hall c' (List.mem_cons_of_mem _ hc')
      by_cases hc : pyStrip c = []
      · obtain ⟨ctx', tr, hgo⟩ := ih f ctx hall' hflen
        exact ⟨ctx', tr, by rw [execGo_loop_cons_skip env h f c rest task ctx hc, hgo]⟩
      · obtain ⟨r, hr, hrc⟩ := hall c (List.mem_cons_self c rest) hc
        cases f with
        | zero => exact absurd hflen (Nat.not_lt_zero _)
        | succ f2 =>
          have hcmd := execGo_cmd_success env h f2 c task 0 ctx r hr hrc
          obtain ⟨ctx', tr, hgo⟩ :=
            ih (f2 + 1) (_add_to_context ctx env.timestamp c r.stdout true) hall' hflen
          refine ⟨ctx', (c, 0) :: tr, ?_⟩
          rw [execGo_loop_cons_exec_ok env h (f2 + 1) c rest task ctx r.stdout _
            [(c, 0)] hc hcmd, hgo]
          rfl

theorem execGo_loop_first_fail (env : ShellEnv) (h : ShellHelper) (task : Str) :
    ∀ (pre : List Str) (fuel : Nat) (ctx : Ctx) (c : Str) (rest : List Str) (r : RunResult),
      (∀ c' ∈ pre, pyStrip c' ≠ [] → ∃ r', env.run c' = .ran r' ∧ r'.returncode = 0) →
      pyStrip c ≠ [] → env.run c = .ran r → r.returncode ≠ 0 → 0 < h.max_retries →
      pre.length + 1 < fuel →
      ∃ ctx' tr, execGo env h fuel (.loop (pre ++ c :: rest) task ctx) =
        some ((false, recoveryFailedMsg couldNotMsg), ctx', tr) := by
  intro pre
  induction pre with
  | nil =>
    intro fuel ctx c rest r hall hc hr hrc hmax hf
    obtain ⟨f2, rfl⟩ : ∃ f2, fuel = f2 + 1 + 1 := ⟨fuel - 2, by omega⟩
    have hcmd := execGo_cmd_fail_below env h f2 c task 0 ctx r hr hrc hmax
    refine ⟨_add_to_context ctx env.timestamp c r.stderr false, [(c, 0)], ?_⟩
    rw [List.nil_append]
    exact execGo_loop_cons_exec_fail env h (f2 + 1) c rest task ctx couldNotMsg _ _
      hc hcmd
  | cons a pre' ih =>
    intro fuel ctx c rest r hall hc hr hrc hmax hf
    obtain ⟨f, rfl⟩ : ∃ f, fuel = f + 1 := ⟨fuel - 1, by omega⟩
    have hall' : ∀ c' ∈ pre', pyStrip c' ≠ [] →
        ∃ r', env.run c' = .ran r' ∧ r'.returncode = 0 :=
      fun c' h' => hall c' (List.mem_cons_of_mem _ h')
    have hflen : pre'.length + 1 < f := by
      simp only [List.length_cons] at hf
      omega
    by_cases ha : pyStrip a = []
    · obtain ⟨ctx', tr, hgo⟩ := ih f ctx c rest r hall' hc hr hrc hmax hflen
      refine ⟨ctx', tr, ?_⟩
      rw [List.cons_append,
        execGo_loop_cons_skip env h f a (pre' ++ c :: rest) task ctx ha, hgo]
    · obtain ⟨ra, hra, hrca⟩ := hall a (List.mem_cons_self a pre') ha
      obtain ⟨f2, rfl⟩ : ∃ f2, f = f2 + 1 := ⟨f - 1, by omega⟩
      have hcmd := execGo_cmd_success env h f2 a task 0 ctx ra hra hrca
      obtain ⟨ctx', tr, hgo⟩ :=
        ih (f2 + 1) (_add_to_context ctx env.timestamp a ra.stdout true) c rest r
          hall' hc hr hrc hmax hflen
      refine ⟨ctx', (a, 0) :: tr, ?_⟩
      rw [List.cons_append,
        execGo_loop_cons_exec_ok env h (f2 + 1) a (pre' ++ c :: rest) task ctx ra.stdout _
          [(a, 0)] ha hcmd, hgo]
      rfl

/-- C8: in trust mode, when a command fails with the retry budget
exhausted, the model-suggested recovery commands (the newline-split
recovery response) are run in order, skipping blank lines, each with
retry count reset to 0: if every non-blank recovery command exits 0 the
result is `(True, "Recovery completed successfully")` — success reported
although the original command failed — and as soon as one recovery
command fails the result is `False` with message
`"Recovery failed: ..."`, the remaining recovery commands being
irrelevant. -/
theorem trust_mode_recovery (env : ShellEnv) (h : ShellHelper) (fuel : Nat)
    (command task : Str) (retry_count : Nat) (ctx : Ctx) (r : RunResult)
    (rcmds : List Str)
    (htrust : h.trust_mode = true) (hretry : h.max_retries ≤ retry_count)
    (hrun : env.run command = .ran r) (hrc : r.returncode ≠ 0)
    (hrcmds : rcmds = splitNl (env.recover (env.analyze (pyLastN h.max_retries
      (_add_to_context ctx env.timestamp command r.stderr false)) env.dirInfo task)
      env.dirInfo task)) :
    ((∀ c ∈ rcmds, pyStrip c ≠ [] → ∃ rc, env.run c = .ran rc ∧ rc.returncode = 0) →
      rcmds.length + 1 < fuel →
      execResult env h fuel command task retry_count ctx = some (true, recoveryOkMsg)) ∧
    (∀ pre c rest rc, rcmds = pre ++ c :: rest →
      (∀ c' ∈ pre, pyStrip c' ≠ [] → ∃ rc', env.run c' = .ran rc' ∧ rc'.returncode = 0) →
      pyStrip c ≠ [] → env.run c = .ran rc → rc.returncode ≠ 0 → 0 < h.max_retries →
      pre.length + 2 < fuel →
      execResult env h fuel command task retry_count ctx =
        some (false, recoveryFailedMsg couldNotMsg)) := by
  constructor
  · intro hall hf
    obtain ⟨f, rfl⟩ : ∃ f, fuel = f + 1 := ⟨fuel - 1, by omega⟩
    rw [execResult, execGo_cmd_trust_exhausted env h f command task retry_count ctx r
      htrust hretry hrun hrc, ← hrcmds]
    obtain ⟨ctx', tr, hloop⟩ := execGo_loop_all_ok env h task rcmds f
      (_add_to_context ctx env.timestamp command r.stderr false) hall (by omega)
    rw [hloop]
    rfl
  · intro pre c rest rc hsplit hall hc hr hrc' hmax hf
    obtain ⟨f, rfl⟩ : ∃ f, fuel = f + 1 := ⟨fuel - 1, by omega⟩
    rw [execResult, execGo_cmd_trust_exhausted env h f command task retry_count ctx r
      htrust hretry hrun hrc, ← hrcmds, hsplit]
    obtain ⟨ctx', tr, hloop⟩ := execGo_loop_first_fail env h task pre f
      (_add_to_context ctx env.timestamp command r.stderr false) c rest rc hall hc hr
      hrc' hmax (by omega)
    rw [hloop]
    rfl

/-- C8 witness: the failing command `"bad"` exhausts its retries; the
recovery response is the single succeeding command `"fix"`, and the
overall result is `(True, "Recovery completed successfully")`. -/
theorem trust_mode_recovery_witness :
    execResult envRecover ⟨true, 3⟩ 5 ("bad".toList) ("t".toList) 3 [] =
      some (true, recoveryOkMsg) :=
  (trust_mode_recovery envRecover ⟨true, 3⟩ 5 ("bad".toList) ("t".toList) 3 []
    ⟨1, [], "e".toList⟩ ["fix".toList] rfl (by decide) (by decide) (by decide)
    (by decide)).1
    (by
      intro c hcm hcs
      rw [List.mem_singleton] at hcm
      subst hcm
      exact ⟨⟨0, "y".toList, []⟩, by decide, rfl⟩)
    (by decide)

end CmdLineHelper

